import Mathlib

/-!
Shallow embedding of the approval-workflow engine of the expense-approval
application (files `src/server.cjs` and `src/database.cjs`).

Modelling conventions:

* JS numbers used for amounts and rule bounds are modelled as `ℚ`
  (all amounts exercised here are exactly representable).
* Timestamps (ISO strings produced by `new Date().toISOString()`) are
  modelled as `Nat` values supplied by the caller as `now`; a nullable
  timestamp column is `Option Nat`.
* `Math.max(...workflow.map(w => w.level))` evaluates to `-Infinity` on an
  empty workflow; `maxApprovalLevel` is therefore modelled as `Option Nat`
  with `none` standing for `-Infinity`.  The JS comparison
  `currentApprovalLevel < maxApprovalLevel` is `false` when the right side
  is `-Infinity`, which `levLt` reproduces.
* The SQLite store is modelled with the `approvals` table grouped under the
  owning expense row (the code only ever reads approval rows through
  `getApprovalRecords(expenseId)` and writes them with a
  `WHERE expense_id = ?` clause, so the grouping is invariant).
  Rows are created in workflow order, which is already sorted by level, and
  are never reordered, so the `ORDER BY level` of `getApprovalRecords` is
  the identity on this representation.
* The query of `getApprovalWorkflow` is
  `SELECT DISTINCT level, recipient ... ORDER BY level`.  SQLite answers it
  with a temporary B-tree keyed on the result columns `(level, recipient)`;
  since the `ORDER BY` column is a prefix of that key, rows are emitted in
  ascending `(level, recipient)` order.  The model therefore filters,
  projects, removes duplicates and sorts by level with ties broken by
  recipient.
-/

/-- Status values stored in the `status` columns of `expenses` and
`approvals` (`'PENDING' | 'APPROVED' | 'DECLINED'`). -/
inductive Status
  | PENDING
  | APPROVED
  | DECLINED
  deriving DecidableEq

/-- A row of the `approval_rules` table (see `initializeApprovalRulesAndUsers`
and the table schema in `database.cjs`). -/
structure ApprovalRule where
  department : String
  amountMin : ℚ
  amountMax : ℚ
  currency : String
  level : Nat
  recipient : String
  deriving DecidableEq

/-- A `(level, recipient)` pair returned by `getApprovalWorkflow`. -/
structure WorkflowStep where
  level : Nat
  recipient : String
  deriving DecidableEq

/-- A row of the `approvals` table, as surfaced by `getApprovalRecords`. -/
structure ApprovalRecord where
  id : String
  expenseId : String
  level : Nat
  approverEmail : String
  status : Status
  approvedAt : Option Nat
  deriving DecidableEq

/-- Attachment metadata columns of the `expenses` table. -/
structure Attachment where
  filename : String
  mimetype : String
  path : String
  originalFilename : String
  deriving DecidableEq

/-- An expense row as assembled by `getExpenseById` (the row of the
`expenses` table together with its approval records). -/
structure Expense where
  id : String
  name : String
  amount : ℚ
  currency : String
  department : String
  submitterEmail : String
  status : Status
  submittedAt : Nat
  approvedOrDeclinedAt : Option Nat
  currentApprovalLevel : Nat
  maxApprovalLevel : Option Nat
  approvals : List ApprovalRecord
  attachment : Option Attachment
  deriving DecidableEq

/-- The persistent store: the `expenses` table with each row carrying its
`approvals` rows. -/
structure Store where
  expenses : List Expense
  deriving DecidableEq

/-- The WHERE clause of the query in `getApprovalWorkflow`:
`department = ? AND amount_min <= ? AND amount_max >= ? AND
(currency = ? OR currency = 'ALL')`. -/
def ruleMatches (dept : String) (amount : ℚ) (curr : String)
    (r : ApprovalRule) : Bool :=
  (r.department == dept) && decide (r.amountMin ≤ amount) &&
    decide (r.amountMax ≥ amount) && ((r.currency == curr) || (r.currency == "ALL"))

/-- Projection `SELECT level, recipient`. -/
def toStep (r : ApprovalRule) : WorkflowStep :=
  ⟨r.level, r.recipient⟩

/-- Strict lexicographic comparison of character lists by code point —
SQLite's BINARY collation (UTF-8 byte order coincides with code-point
order). -/
def ltCharList : List Char → List Char → Bool
  | [], [] => false
  | _ :: _, [] => false
  | [], _ :: _ => true
  | a :: as, b :: bs =>
    if a.val.toNat < b.val.toNat then true
    else if b.val.toNat < a.val.toNat then false
    else ltCharList as bs

/-- BINARY-collation `a <= b` on strings. -/
def strLe (a b : String) : Prop :=
  ltCharList b.data a.data = false

instance : DecidableRel strLe := fun a b =>
  decidable_of_iff (ltCharList b.data a.data = false) Iff.rfl

/-- Output order of the `DISTINCT ... ORDER BY level` query: ascending level,
ties in BINARY-collation recipient order (the temp B-tree key order). -/
def stepLe (a b : WorkflowStep) : Prop :=
  a.level < b.level ∨ (a.level = b.level ∧ strLe a.recipient b.recipient)

instance : DecidableRel stepLe := fun a b =>
  decidable_of_iff
    (a.level < b.level ∨ (a.level = b.level ∧ strLe a.recipient b.recipient))
    Iff.rfl

/-- `getApprovalWorkflow(department, amount, currency)` of `database.cjs`:
the `SELECT DISTINCT level, recipient ... ORDER BY level` query over the
rule table. -/
def getApprovalWorkflow (rules : List ApprovalRule) (dept : String)
    (amount : ℚ) (curr : String) : List WorkflowStep :=
  List.insertionSort stepLe
    (((rules.filter (ruleMatches dept amount curr)).map toStep).dedup)

/-- `Math.max(...workflow.map(w => w.level))`: `none` models the JS value
`-Infinity` obtained on an empty list. -/
def jsMaxLevel (ws : List WorkflowStep) : Option Nat :=
  ws.foldr
    (fun s acc =>
      match acc with
      | none => some s.level
      | some m => some (max s.level m))
    none

/-- JS comparison `currentApprovalLevel < maxApprovalLevel`, with `none`
standing for `-Infinity` (any `k < -Infinity` is false). -/
def levLt (cur : Nat) : Option Nat → Bool
  | none => false
  | some m => decide (cur < m)

/-- Typed failures surfaced by the HTTP handlers of `server.cjs`
(each constructor corresponds to one distinct error response). -/
inductive ApiError
  /-- 403 `'Unauthorized to approve/decline expense.'` (role check). -/
  | RoleUnauthorized
  /-- 404 `'Expense not found.'`. -/
  | NotFound
  /-- 403 `'Expense is not pending approval.'`. -/
  | ExpenseNotPending
  /-- 403 `'You are not authorized to approve/decline this expense at this
  level.'`. -/
  | NotAuthorized
  /-- 500 reached through a rejected database promise
  (`'Approval record not found'` / `'Expense not found'` from `db.run`
  callbacks with `changes === 0`). -/
  | Internal
  deriving DecidableEq

/-- `SELECT * FROM expenses WHERE id = ?` (`getExpenseById`). -/
def findExpense (store : Store) (id : String) : Option Expense :=
  store.expenses.find? (fun e => e.id == id)

/-- Role precondition of both decision handlers:
`userRole === 'APPROVER' || userRole === 'ADMIN'`. -/
def roleOk (userRole : String) : Bool :=
  (userRole == "APPROVER") || (userRole == "ADMIN")

/-- The `expense.approvals.find(...)` probe of both decision handlers: a
record at the current level, held by the acting email, still PENDING. -/
def findActionable (e : Expense) (userEmail : String) : Option ApprovalRecord :=
  e.approvals.find? (fun a =>
    (a.level == e.currentApprovalLevel) && (a.approverEmail == userEmail) &&
      (a.status == Status.PENDING))

/-- Effect of `updateApprovalRecord`s UPDATE on one `approvals` row:
rows matching `level = ? AND approver_email = ?` get the new status, and
`approved_at` is the current time for APPROVED and NULL otherwise. -/
def updRow (level : Nat) (email : String) (st : Status) (now : Nat)
    (a : ApprovalRecord) : ApprovalRecord :=
  if (a.level == level) && (a.approverEmail == email) then
    { a with status := st
             approvedAt := if st == Status.APPROVED then some now else none }
  else a

/-- Map a row-update over the approval rows of the expense with the given id
(the `WHERE expense_id = ?` clause of `updateApprovalRecord`). -/
def mapApprovalsIn (id : String) (f : ApprovalRecord → ApprovalRecord)
    (store : Store) : Store :=
  ⟨store.expenses.map (fun e =>
    if e.id == id then { e with approvals := e.approvals.map f } else e)⟩

/-- Whether the UPDATE of `updateApprovalRecord` touches at least one row
(`this.changes === 0` rejects otherwise). -/
def hasApprovalRecord (store : Store) (id : String) (level : Nat)
    (email : String) : Bool :=
  store.expenses.any (fun e =>
    (e.id == id) && e.approvals.any (fun a =>
      (a.level == level) && (a.approverEmail == email)))

/-- `updateApprovalRecord(expenseId, level, approverEmail, status)` of
`database.cjs`. -/
def dbUpdateApprovalRecord (store : Store) (id : String) (level : Nat)
    (email : String) (st : Status) (now : Nat) : Except ApiError Store :=
  if hasApprovalRecord store id level email then
    .ok (mapApprovalsIn id (updRow level email st now) store)
  else
    .error .Internal

/-- Whether an expense row with the given id exists (`this.changes === 0`
makes `updateExpenseStatus` reject otherwise). -/
def hasExpense (store : Store) (id : String) : Bool :=
  store.expenses.any (fun e => e.id == id)

/-- Effect of `updateExpenseStatus`s UPDATE on the matching expense row:
sets `status` and `approved_or_declined_at`, and also
`current_approval_level` when a level argument is passed. -/
def setExpenseStatus (id : String) (st : Status) (t : Option Nat)
    (lvl : Option Nat) (store : Store) : Store :=
  ⟨store.expenses.map (fun e =>
    if e.id == id then
      { e with status := st
               approvedOrDeclinedAt := t
               currentApprovalLevel :=
                 match lvl with
                 | some l => l
                 | none => e.currentApprovalLevel }
    else e)⟩

/-- `updateExpenseStatus(expenseId, status, approvedOrDeclinedAt,
currentLevel = null)` of `database.cjs`. -/
def dbUpdateExpenseStatus (store : Store) (id : String) (st : Status)
    (t : Option Nat) (lvl : Option Nat) : Except ApiError Store :=
  if hasExpense store id then
    .ok (setExpenseStatus id st t lvl store)
  else
    .error .Internal

/-- Records at the current approval level of an expense, taken from the
snapshot read by the handler (`expense.approvals.filter(...)`,
`server.cjs` line 361). -/
def levelRecords (e : Expense) : List ApprovalRecord :=
  e.approvals.filter (fun a => a.level == e.currentApprovalLevel)

/-- Records at the current level counted as complete by the handler:
`approval.approverEmail === userEmail || approval.status === 'APPROVED'`
(`server.cjs` lines 362-364), again over the pre-update snapshot. -/
def completedRecords (e : Expense) (userEmail : String) : List ApprovalRecord :=
  (levelRecords e).filter (fun a =>
    (a.approverEmail == userEmail) || (a.status == Status.APPROVED))

/-- `PUT /api/expenses/:id/approve` of `server.cjs` (lines 324-410).
Returns the store after the request together with the response: `.ok ()`
for the 200 response, `.error` for the error responses.  Every error
response is issued before any write, except `.Internal`, which the
handler's guards make unreachable. -/
def approve (store : Store) (id userEmail userRole : String) (now : Nat) :
    Store × Except ApiError Unit :=
  if !roleOk userRole then (store, .error .RoleUnauthorized)
  else
    match findExpense store id with
    | none => (store, .error .NotFound)
    | some expense =>
      if expense.status != Status.PENDING then (store, .error .ExpenseNotPending)
      else
        match findActionable expense userEmail with
        | none => (store, .error .NotAuthorized)
        | some _ =>
          match dbUpdateApprovalRecord store id expense.currentApprovalLevel
              userEmail Status.APPROVED now with
          | .error e => (store, .error e)
          | .ok store1 =>
            if (completedRecords expense userEmail).length ==
                (levelRecords expense).length then
              if levLt expense.currentApprovalLevel expense.maxApprovalLevel then
                match dbUpdateExpenseStatus store1 id Status.PENDING none
                    (some (expense.currentApprovalLevel + 1)) with
                | .error e => (store1, .error e)
                | .ok store2 => (store2, .ok ())
              else
                match dbUpdateExpenseStatus store1 id Status.APPROVED
                    (some now) none with
                | .error e => (store1, .error e)
                | .ok store2 => (store2, .ok ())
            else (store1, .ok ())

/-- `PUT /api/expenses/:id/decline` of `server.cjs` (lines 413-468). -/
def decline (store : Store) (id userEmail userRole : String) (now : Nat) :
    Store × Except ApiError Unit :=
  if !roleOk userRole then (store, .error .RoleUnauthorized)
  else
    match findExpense store id with
    | none => (store, .error .NotFound)
    | some expense =>
      if expense.status != Status.PENDING then (store, .error .ExpenseNotPending)
      else
        match findActionable expense userEmail with
        | none => (store, .error .NotAuthorized)
        | some _ =>
          match dbUpdateApprovalRecord store id expense.currentApprovalLevel
              userEmail Status.DECLINED now with
          | .error e => (store, .error e)
          | .ok store1 =>
            match dbUpdateExpenseStatus store1 id Status.DECLINED
                (some now) none with
            | .error e => (store1, .error e)
            | .ok store2 => (store2, .ok ())

/-- `createApprovalRecords(expenseId, workflow)` of `database.cjs`: one
PENDING row per workflow step, in workflow order.  Row ids are generated
from the step (the source draws them from the clock and a random suffix;
their value is never consulted, only their per-row uniqueness matters). -/
def createApprovalRecords (expenseId : String) (workflow : List WorkflowStep) :
    List ApprovalRecord :=
  workflow.map (fun step =>
    { id := "approval-" ++ expenseId ++ "-" ++ toString step.level ++ "-" ++
        step.recipient
      expenseId := expenseId
      level := step.level
      approverEmail := step.recipient
      status := Status.PENDING
      approvedAt := none })

/-- `addExpense(expense)` of `database.cjs` (lines 331-376): resolves the
workflow, computes `maxLevel` with `Math.max`, inserts the expense row with
`current_approval_level = 1`, creates the approval records and returns the
expense enriched with them.  The insertion never fails on the modelled
store. -/
def addExpense (rules : List ApprovalRule) (store : Store) (id name : String)
    (amount : ℚ) (currency department submitterEmail : String)
    (submittedAt : Nat) (attachment : Option Attachment) : Store × Expense :=
  let workflow := getApprovalWorkflow rules department amount currency
  let maxLevel := jsMaxLevel workflow
  let e : Expense :=
    { id := id
      name := name
      amount := amount
      currency := currency
      department := department
      submitterEmail := submitterEmail
      status := Status.PENDING
      submittedAt := submittedAt
      approvedOrDeclinedAt := none
      currentApprovalLevel := 1
      maxApprovalLevel := maxLevel
      approvals := createApprovalRecords id workflow
      attachment := attachment }
  (⟨store.expenses ++ [e]⟩, e)

/-- The rule table seeded by `initializeApprovalRulesAndUsers`
(`database.cjs` lines 530-569). -/
def approvalRulesSeed : List ApprovalRule :=
  [ ⟨"Logistics", 0, (mkRat 99999 100), "ALL", 1, "rawad.zahreddine@holdalgroup.com"⟩,
    ⟨"Logistics", 1000, (mkRat 499999 100), "ALL", 1, "rawad.zahreddine@holdalgroup.com"⟩,
    ⟨"Logistics", 1000, (mkRat 499999 100), "ALL", 2, "digitalage@holdalgroup.com"⟩,
    ⟨"Logistics", 5000, 999999999, "ALL", 1, "rawad.zahreddine@holdalgroup.com"⟩,
    ⟨"Logistics", 5000, 999999999, "ALL", 2, "digitalage@holdalgroup.com"⟩,
    ⟨"Logistics", 5000, 999999999, "ALL", 3, "ceo@holdalgroup.com"⟩,
    ⟨"HR", 0, (mkRat 99999 100), "ALL", 1, "hr@holdalgroup.com"⟩,
    ⟨"HR", 1000, (mkRat 499999 100), "ALL", 1, "hr@holdalgroup.com"⟩,
    ⟨"HR", 1000, (mkRat 499999 100), "ALL", 2, "ceo@holdalgroup.com"⟩,
    ⟨"HR", 5000, 999999999, "ALL", 1, "hr@holdalgroup.com"⟩,
    ⟨"HR", 5000, 999999999, "ALL", 2, "ceo@holdalgroup.com"⟩,
    ⟨"Retail", 0, (mkRat 99999 100), "ALL", 1, "retail@holdalgroup.com"⟩,
    ⟨"Retail", 1000, (mkRat 499999 100), "ALL", 1, "retail@holdalgroup.com"⟩,
    ⟨"Retail", 1000, (mkRat 499999 100), "ALL", 2, "digitalage@holdalgroup.com"⟩,
    ⟨"Retail", 5000, 999999999, "ALL", 1, "retail@holdalgroup.com"⟩,
    ⟨"Retail", 5000, 999999999, "ALL", 2, "digitalage@holdalgroup.com"⟩,
    ⟨"Retail", 5000, 999999999, "ALL", 3, "ceo@holdalgroup.com"⟩,
    ⟨"Incoma", 0, (mkRat 99999 100), "ALL", 1, "incoma@holdalgroup.com"⟩,
    ⟨"Incoma", 1000, (mkRat 499999 100), "ALL", 1, "incoma@holdalgroup.com"⟩,
    ⟨"Incoma", 1000, (mkRat 499999 100), "ALL", 2, "digitalage@holdalgroup.com"⟩,
    ⟨"Incoma", 5000, 999999999, "ALL", 1, "incoma@holdalgroup.com"⟩,
    ⟨"Incoma", 5000, 999999999, "ALL", 2, "digitalage@holdalgroup.com"⟩,
    ⟨"Incoma", 5000, 999999999, "ALL", 3, "ceo@holdalgroup.com"⟩,
    ⟨"Para-Pharma", 0, (mkRat 99999 100), "ALL", 1, "parapharma@holdalgroup.com"⟩,
    ⟨"Para-Pharma", 1000, (mkRat 499999 100), "ALL", 1, "parapharma@holdalgroup.com"⟩,
    ⟨"Para-Pharma", 1000, (mkRat 499999 100), "ALL", 2, "digitalage@holdalgroup.com"⟩,
    ⟨"Para-Pharma", 5000, 999999999, "ALL", 1, "parapharma@holdalgroup.com"⟩,
    ⟨"Para-Pharma", 5000, 999999999, "ALL", 2, "digitalage@holdalgroup.com"⟩,
    ⟨"Para-Pharma", 5000, 999999999, "ALL", 3, "ceo@holdalgroup.com"⟩ ]

/-- Normal form of the store-and-response effect of a non-erroring `approve`
call, used to state an evaluation lemma below. -/
def approveOutcome (store : Store) (id userEmail : String) (expense : Expense)
    (now : Nat) : Store × Except ApiError Unit :=
  let store1 := mapApprovalsIn id
    (updRow expense.currentApprovalLevel userEmail Status.APPROVED now) store
  if (completedRecords expense userEmail).length ==
      (levelRecords expense).length then
    if levLt expense.currentApprovalLevel expense.maxApprovalLevel then
      (setExpenseStatus id Status.PENDING none
        (some (expense.currentApprovalLevel + 1)) store1, Except.ok ())
    else
      (setExpenseStatus id Status.APPROVED (some now) none store1, Except.ok ())
  else (store1, Except.ok ())

/-- Normal form of the store-and-response effect of a non-erroring `decline`
call. -/
def declineOutcome (store : Store) (id userEmail : String) (expense : Expense)
    (now : Nat) : Store × Except ApiError Unit :=
  (setExpenseStatus id Status.DECLINED (some now) none
    (mapApprovalsIn id
      (updRow expense.currentApprovalLevel userEmail Status.DECLINED now) store),
   Except.ok ())

/-! ### Concrete scenarios used to exercise the theorems -/

/-- An expense with two level-1 approvers, both PENDING. -/
def cxExp : Expense :=
  ⟨"E", "lunch", 100, "USD", "HR", "s@x", Status.PENDING, 0, none, 1, some 1,
    [⟨"r1", "E", 1, "a@x", Status.PENDING, none⟩,
     ⟨"r2", "E", 1, "b@x", Status.PENDING, none⟩], none⟩

def cxStore : Store := ⟨[cxExp]⟩

/-- A two-level expense: one approver per level, currently at level 1. -/
def wExp : Expense :=
  ⟨"W", "server", 2500, "USD", "Logistics", "s@x", Status.PENDING, 0, none, 1,
    some 2,
    [⟨"r1", "W", 1, "a@x", Status.PENDING, none⟩,
     ⟨"r2", "W", 2, "b@x", Status.PENDING, none⟩], none⟩

def wStore : Store := ⟨[wExp]⟩

/-- A terminal (already APPROVED) expense. -/
def tExp : Expense :=
  ⟨"T", "desk", 300, "USD", "HR", "s@x", Status.APPROVED, 0, some 3, 1, some 1,
    [⟨"r1", "T", 1, "a@x", Status.APPROVED, some 3⟩], none⟩

def tStore : Store := ⟨[tExp]⟩

/-- A three-level expense at level 2 with level 1 already approved and two
approvers at level 2, mirroring the spec scenario of a mid-workflow
decline. -/
def dExp : Expense :=
  ⟨"D", "truck", 6000, "USD", "Logistics", "s@x", Status.PENDING, 0, none, 2,
    some 3,
    [⟨"r1", "D", 1, "a@x", Status.APPROVED, some 1⟩,
     ⟨"r2", "D", 2, "b@x", Status.PENDING, none⟩,
     ⟨"r3", "D", 2, "c@x", Status.PENDING, none⟩,
     ⟨"r4", "D", 3, "d@x", Status.PENDING, none⟩], none⟩

def dStore : Store := ⟨[dExp]⟩

/-- An expense whose level-1 approver `a@x` has already decided while a
second level-1 record is still PENDING. -/
def eExp : Expense :=
  ⟨"G", "chairs", 800, "USD", "HR", "s@x", Status.PENDING, 0, none, 1, some 1,
    [⟨"r1", "G", 1, "a@x", Status.APPROVED, some 1⟩,
     ⟨"r2", "G", 1, "b@x", Status.PENDING, none⟩], none⟩

def eStore : Store := ⟨[eExp]⟩

/-! ### Helper lemmas about the store operations -/

theorem ltCharList_irrefl : ∀ x, ltCharList x x = false
  | [] => rfl
  | a :: as => by
    rw [ltCharList, if_neg (lt_irrefl _), if_neg (lt_irrefl _)]
    exact ltCharList_irrefl as

theorem ltCharList_asymm : ∀ x y, ltCharList x y = true →
    ltCharList y x = false
  | [], [], h => by cases h
  | _ :: _, [], h => by cases h
  | [], _ :: _, _ => rfl
  | a :: as, b :: bs, h => by
    rw [ltCharList] at h ⊢
    by_cases hab : a.val.toNat < b.val.toNat
    · rw [if_neg (by omega), if_pos hab]
    · rw [if_neg hab] at h
      by_cases hba : b.val.toNat < a.val.toNat
      · rw [if_pos hba] at h
        cases h
      · rw [if_neg hba] at h
        rw [if_neg hba, if_neg hab]
        exact ltCharList_asymm as bs h

theorem ltCharList_lt_or : ∀ x y z, ltCharList x z = true →
    ltCharList x y = true ∨ ltCharList y z = true
  | [], _, [], h => by cases h
  | _ :: _, _, [], h => by cases h
  | [], [], _ :: _, _ => Or.inr rfl
  | [], _ :: _, _ :: _, _ => Or.inl rfl
  | _ :: _, [], _ :: _, _ => Or.inr rfl
  | a :: as, b :: bs, c :: cs, h => by
    rw [ltCharList] at h
    by_cases hab : a.val.toNat < b.val.toNat
    · exact Or.inl (by rw [ltCharList, if_pos hab])
    · by_cases hbc : b.val.toNat < c.val.toNat
      · exact Or.inr (by rw [ltCharList, if_pos hbc])
      · by_cases hac : a.val.toNat < c.val.toNat
        · omega
        · rw [if_neg hac] at h
          by_cases hca : c.val.toNat < a.val.toNat
          · rw [if_pos hca] at h
            cases h
          · rw [if_neg hca] at h
            rcases ltCharList_lt_or as bs cs h with h' | h'
            · refine Or.inl ?_
              rw [ltCharList, if_neg hab, if_neg (by omega)]
              exact h'
            · refine Or.inr ?_
              rw [ltCharList, if_neg hbc, if_neg (by omega)]
              exact h'

theorem strLe_total (a b : String) : strLe a b ∨ strLe b a := by
  by_cases h : ltCharList b.data a.data = true
  · exact Or.inr (ltCharList_asymm _ _ h)
  · exact Or.inl (Bool.eq_false_iff.mpr h)

theorem strLe_trans {a b c : String} (h1 : strLe a b) (h2 : strLe b c) :
    strLe a c := by
  rw [strLe] at h1 h2 ⊢
  by_cases h : ltCharList c.data a.data = true
  · rcases ltCharList_lt_or c.data b.data a.data h with h' | h'
    · rw [h2] at h'
      cases h'
    · rw [h1] at h'
      cases h'
  · exact Bool.eq_false_iff.mpr h

theorem stepLe_isTotal : IsTotal WorkflowStep stepLe := by
  constructor
  intro a b
  rcases Nat.lt_trichotomy a.level b.level with h | h | h
  · exact Or.inl (Or.inl h)
  · rcases strLe_total a.recipient b.recipient with h' | h'
    · exact Or.inl (Or.inr ⟨h, h'⟩)
    · exact Or.inr (Or.inr ⟨h.symm, h'⟩)
  · exact Or.inr (Or.inl h)

theorem stepLe_isTrans : IsTrans WorkflowStep stepLe := by
  constructor
  intro a b c hab hbc
  rcases hab with hab | ⟨hab, hab'⟩ <;> rcases hbc with hbc | ⟨hbc, hbc'⟩
  · exact Or.inl (hab.trans hbc)
  · exact Or.inl (hbc ▸ hab)
  · exact Or.inl (hab ▸ hbc)
  · exact Or.inr ⟨hab.trans hbc, strLe_trans hab' hbc'⟩


theorem findExpense_mapStore (g : Expense → Expense)
    (hg : ∀ e, (g e).id = e.id) (store : Store) (id : String) :
    findExpense ⟨store.expenses.map g⟩ id = (findExpense store id).map g := by
  simp only [findExpense, List.find?_map]
  congr 2
  funext e
  simp [hg]

theorem hasExpense_mapStore (g : Expense → Expense)
    (hg : ∀ e, (g e).id = e.id) (store : Store) (id : String) :
    hasExpense ⟨store.expenses.map g⟩ id = hasExpense store id := by
  simp [hasExpense, List.any_map, Function.comp_def, hg]

theorem mapApprovalsIn_id_preserving (id : String)
    (f : ApprovalRecord → ApprovalRecord) :
    ∀ e : Expense,
      ((fun e : Expense =>
        if e.id == id then { e with approvals := e.approvals.map f } else e) e).id
        = e.id := by
  intro e
  dsimp only []
  split <;> rfl

theorem setExpenseStatus_id_preserving (id : String) (st : Status)
    (t : Option Nat) (lvl : Option Nat) :
    ∀ e : Expense,
      ((fun e : Expense =>
        if e.id == id then
          { e with status := st
                   approvedOrDeclinedAt := t
                   currentApprovalLevel :=
                     match lvl with
                     | some l => l
                     | none => e.currentApprovalLevel }
        else e) e).id = e.id := by
  intro e
  dsimp only []
  split <;> rfl

theorem hasExpense_of_findExpense {store : Store} {id : String} {e : Expense}
    (h : findExpense store id = some e) : hasExpense store id = true := by
  have hmem := List.mem_of_find?_eq_some h
  have hp := List.find?_some h
  exact List.any_eq_true.mpr ⟨e, hmem, hp⟩

theorem hasApprovalRecord_intro {store : Store} {id : String} {e : Expense}
    {a : ApprovalRecord} {level : Nat} {email : String}
    (hfind : findExpense store id = some e) (hmem : a ∈ e.approvals)
    (hl : (a.level == level) = true) (he : (a.approverEmail == email) = true) :
    hasApprovalRecord store id level email = true := by
  have hemem := List.mem_of_find?_eq_some hfind
  have hp := List.find?_some hfind
  refine List.any_eq_true.mpr ⟨e, hemem, ?_⟩
  refine (Bool.and_eq_true _ _).mpr ⟨hp, ?_⟩
  exact List.any_eq_true.mpr ⟨a, hmem, (Bool.and_eq_true _ _).mpr ⟨hl, he⟩⟩

theorem findActionable_facts {e : Expense} {userEmail : String}
    {a : ApprovalRecord} (h : findActionable e userEmail = some a) :
    a ∈ e.approvals ∧ (a.level == e.currentApprovalLevel) = true ∧
      (a.approverEmail == userEmail) = true ∧ a.status = Status.PENDING := by
  have hmem := List.mem_of_find?_eq_some h
  have hp := List.find?_some h
  rw [Bool.and_eq_true, Bool.and_eq_true] at hp
  exact ⟨hmem, hp.1.1, hp.1.2, by simpa using hp.2⟩

theorem approve_eval (store : Store) (id userEmail userRole : String)
    (now : Nat) (expense : Expense) (rec : ApprovalRecord)
    (hrole : roleOk userRole = true)
    (hfind : findExpense store id = some expense)
    (hpend : expense.status = Status.PENDING)
    (hrec : findActionable expense userEmail = some rec) :
    approve store id userEmail userRole now =
      approveOutcome store id userEmail expense now := by
  obtain ⟨hmem, hl, he, _⟩ := findActionable_facts hrec
  have hhar : hasApprovalRecord store id expense.currentApprovalLevel
      userEmail = true := hasApprovalRecord_intro hfind hmem hl he
  have hhe1 : hasExpense
      (mapApprovalsIn id
        (updRow expense.currentApprovalLevel userEmail Status.APPROVED now)
        store) id = true := by
    rw [mapApprovalsIn, hasExpense_mapStore _ (mapApprovalsIn_id_preserving _ _)]
    exact hasExpense_of_findExpense hfind
  have h1 : dbUpdateApprovalRecord store id expense.currentApprovalLevel
      userEmail Status.APPROVED now =
      .ok (mapApprovalsIn id
        (updRow expense.currentApprovalLevel userEmail Status.APPROVED now)
        store) := by
    unfold dbUpdateApprovalRecord
    rw [hhar]
    rfl
  have h2 : ∀ st t lvl,
      dbUpdateExpenseStatus
        (mapApprovalsIn id
          (updRow expense.currentApprovalLevel userEmail Status.APPROVED now)
          store) id st t lvl =
      .ok (setExpenseStatus id st t lvl
        (mapApprovalsIn id
          (updRow expense.currentApprovalLevel userEmail Status.APPROVED now)
          store)) := by
    intro st t lvl
    unfold dbUpdateExpenseStatus
    rw [hhe1]
    rfl
  simp only [approve, approveOutcome, hrole, Bool.not_true, Bool.false_eq_true,
    if_false, hfind, hpend, bne_self_eq_false, hrec, h1, h2]

theorem decline_eval (store : Store) (id userEmail userRole : String)
    (now : Nat) (expense : Expense) (rec : ApprovalRecord)
    (hrole : roleOk userRole = true)
    (hfind : findExpense store id = some expense)
    (hpend : expense.status = Status.PENDING)
    (hrec : findActionable expense userEmail = some rec) :
    decline store id userEmail userRole now =
      declineOutcome store id userEmail expense now := by
  obtain ⟨hmem, hl, he, _⟩ := findActionable_facts hrec
  have hhar : hasApprovalRecord store id expense.currentApprovalLevel
      userEmail = true := hasApprovalRecord_intro hfind hmem hl he
  have hhe1 : hasExpense
      (mapApprovalsIn id
        (updRow expense.currentApprovalLevel userEmail Status.DECLINED now)
        store) id = true := by
    rw [mapApprovalsIn, hasExpense_mapStore _ (mapApprovalsIn_id_preserving _ _)]
    exact hasExpense_of_findExpense hfind
  have h1 : dbUpdateApprovalRecord store id expense.currentApprovalLevel
      userEmail Status.DECLINED now =
      .ok (mapApprovalsIn id
        (updRow expense.currentApprovalLevel userEmail Status.DECLINED now)
        store) := by
    unfold dbUpdateApprovalRecord
    rw [hhar]
    rfl
  have h2 : ∀ st t lvl,
      dbUpdateExpenseStatus
        (mapApprovalsIn id
          (updRow expense.currentApprovalLevel userEmail Status.DECLINED now)
          store) id st t lvl =
      .ok (setExpenseStatus id st t lvl
        (mapApprovalsIn id
          (updRow expense.currentApprovalLevel userEmail Status.DECLINED now)
          store)) := by
    intro st t lvl
    unfold dbUpdateExpenseStatus
    rw [hhe1]
    rfl
  simp only [decline, declineOutcome, hrole, Bool.not_true, Bool.false_eq_true,
    if_false, hfind, hpend, bne_self_eq_false, hrec, h1, h2]

theorem findExpense_mapApprovalsIn {store : Store} {id : String}
    {expense : Expense} (f : ApprovalRecord → ApprovalRecord)
    (hfind : findExpense store id = some expense) :
    findExpense (mapApprovalsIn id f store) id =
      some { expense with approvals := expense.approvals.map f } := by
  have hp := List.find?_some hfind
  rw [mapApprovalsIn, findExpense_mapStore _ (mapApprovalsIn_id_preserving id f),
    hfind, Option.map_some']
  rw [if_pos hp]

theorem findExpense_setExpenseStatus {store : Store} {id : String}
    {expense : Expense} (st : Status) (t : Option Nat) (lvl : Option Nat)
    (hfind : findExpense store id = some expense) :
    findExpense (setExpenseStatus id st t lvl store) id =
      some { expense with
              status := st
              approvedOrDeclinedAt := t
              currentApprovalLevel :=
                match lvl with
                | some l => l
                | none => expense.currentApprovalLevel } := by
  have hp := List.find?_some hfind
  rw [setExpenseStatus,
    findExpense_mapStore _ (setExpenseStatus_id_preserving id st t lvl),
    hfind, Option.map_some']
  rw [if_pos hp]

/-- C1: for a PENDING expense and an approve call by a holder of a PENDING
record at the current level, the level is judged complete — observably, the
expense row advances or finalizes — exactly when the count of records at the
current level whose `approverEmail` equals the actor or whose status is
APPROVED, taken over the pre-update snapshot of the ledger, equals the total
count of records at that level; when the count is smaller (the count never
exceeds the total) the expense row neither advances nor finalizes. -/
theorem approve_level_complete_iff (store : Store)
    (id userEmail userRole : String) (now : Nat) (expense : Expense)
    (rec : ApprovalRecord)
    (hrole : roleOk userRole = true)
    (hfind : findExpense store id = some expense)
    (hpend : expense.status = Status.PENDING)
    (hrec : findActionable expense userEmail = some rec) :
    ∃ e', findExpense (approve store id userEmail userRole now).1 id = some e' ∧
      (completedRecords expense userEmail).length ≤
        (levelRecords expense).length ∧
      ((e'.currentApprovalLevel ≠ expense.currentApprovalLevel ∨
          e'.status ≠ Status.PENDING) ↔
        (completedRecords expense userEmail).length =
          (levelRecords expense).length) := by
  rw [approve_eval store id userEmail userRole now expense rec hrole hfind hpend
    hrec]
  have hle : (completedRecords expense userEmail).length ≤
      (levelRecords expense).length :=
    List.length_filter_le _ _
  have hfind1 := findExpense_mapApprovalsIn
    (updRow expense.currentApprovalLevel userEmail Status.APPROVED now) hfind
  unfold approveOutcome
  by_cases hc : ((completedRecords expense userEmail).length ==
      (levelRecords expense).length) = true
  · have hceq : (completedRecords expense userEmail).length =
        (levelRecords expense).length := by
      exact beq_iff_eq.mp hc
    rw [if_pos hc]
    by_cases hl : levLt expense.currentApprovalLevel expense.maxApprovalLevel
        = true
    · rw [if_pos hl]
      refine ⟨_, findExpense_setExpenseStatus Status.PENDING none
        (some (expense.currentApprovalLevel + 1)) hfind1, hle, ?_⟩
      exact iff_of_true (Or.inl (by simp)) hceq
    · rw [if_neg hl]
      refine ⟨_, findExpense_setExpenseStatus Status.APPROVED (some now) none
        hfind1, hle, ?_⟩
      exact iff_of_true (Or.inr (by simp)) hceq
  · rw [if_neg hc]
    refine ⟨_, hfind1, hle, ?_⟩
    have hcne : (completedRecords expense userEmail).length ≠
        (levelRecords expense).length := by
      intro h
      exact hc (by simpa using h)
    refine iff_of_false ?_ hcne
    rintro (h | h)
    · exact h rfl
    · exact h hpend

/-- C2: for an approve call that completes the current level, the expense
advances by exactly one level and stays PENDING when the current level is
below `maxApprovalLevel`, and becomes APPROVED with a non-null
`approved_or_declined_at` timestamp when the current level equals
`maxApprovalLevel`. -/
theorem approve_advance_or_finalize (store : Store)
    (id userEmail userRole : String) (now : Nat) (expense : Expense)
    (rec : ApprovalRecord)
    (hrole : roleOk userRole = true)
    (hfind : findExpense store id = some expense)
    (hpend : expense.status = Status.PENDING)
    (hrec : findActionable expense userEmail = some rec)
    (hcomplete : (completedRecords expense userEmail).length =
      (levelRecords expense).length) :
    ∃ e', findExpense (approve store id userEmail userRole now).1 id = some e' ∧
      (approve store id userEmail userRole now).2 = Except.ok () ∧
      (∀ m, expense.maxApprovalLevel = some m →
        expense.currentApprovalLevel < m →
          e'.currentApprovalLevel = expense.currentApprovalLevel + 1 ∧
          e'.status = Status.PENDING) ∧
      (expense.maxApprovalLevel = some expense.currentApprovalLevel →
        e'.status = Status.APPROVED ∧ e'.approvedOrDeclinedAt = some now ∧
          e'.approvedOrDeclinedAt ≠ none) := by
  rw [approve_eval store id userEmail userRole now expense rec hrole hfind hpend
    hrec]
  have hc : ((completedRecords expense userEmail).length ==
      (levelRecords expense).length) = true := beq_iff_eq.mpr hcomplete
  have hfind1 := findExpense_mapApprovalsIn
    (updRow expense.currentApprovalLevel userEmail Status.APPROVED now) hfind
  unfold approveOutcome
  rw [if_pos hc]
  by_cases hl : levLt expense.currentApprovalLevel expense.maxApprovalLevel
      = true
  · rw [if_pos hl]
    refine ⟨_, findExpense_setExpenseStatus Status.PENDING none
      (some (expense.currentApprovalLevel + 1)) hfind1, rfl, ?_, ?_⟩
    · intro m _ _
      exact ⟨rfl, rfl⟩
    · intro hm
      rw [hm] at hl
      simp [levLt] at hl
  · rw [if_neg hl]
    refine ⟨_, findExpense_setExpenseStatus Status.APPROVED (some now) none
      hfind1, rfl, ?_, ?_⟩
    · intro m hm hlt
      rw [hm] at hl
      simp [levLt] at hl
      omega
    · intro _
      exact ⟨rfl, rfl, by simp⟩

/-- C3: a decline by a holder of a PENDING record at the current level sets
the expense status to DECLINED regardless of the level and of any other
PENDING records, changes the status of exactly the actor's own approval
record at the current level (to DECLINED), and leaves every other approval
record of the expense byte-for-byte unchanged. -/
theorem decline_declines_and_frames (store : Store)
    (id userEmail userRole : String) (now : Nat) (expense : Expense)
    (rec : ApprovalRecord)
    (hrole : roleOk userRole = true)
    (hfind : findExpense store id = some expense)
    (hpend : expense.status = Status.PENDING)
    (hrec : findActionable expense userEmail = some rec) :
    ∃ e', findExpense (decline store id userEmail userRole now).1 id = some e' ∧
      (decline store id userEmail userRole now).2 = Except.ok () ∧
      e'.status = Status.DECLINED ∧
      e'.approvals.length = expense.approvals.length ∧
      ∀ i (h1 : i < expense.approvals.length) (h2 : i < e'.approvals.length),
        (¬((expense.approvals.get ⟨i, h1⟩).level =
              expense.currentApprovalLevel ∧
            (expense.approvals.get ⟨i, h1⟩).approverEmail = userEmail) →
          e'.approvals.get ⟨i, h2⟩ = expense.approvals.get ⟨i, h1⟩) ∧
        ((expense.approvals.get ⟨i, h1⟩).level = expense.currentApprovalLevel ∧
           (expense.approvals.get ⟨i, h1⟩).approverEmail = userEmail →
          e'.approvals.get ⟨i, h2⟩ =
            { expense.approvals.get ⟨i, h1⟩ with
                status := Status.DECLINED
                approvedAt := none }) := by
  rw [decline_eval store id userEmail userRole now expense rec hrole hfind hpend
    hrec]
  have hfind1 := findExpense_mapApprovalsIn
    (updRow expense.currentApprovalLevel userEmail Status.DECLINED now) hfind
  unfold declineOutcome
  refine ⟨_, findExpense_setExpenseStatus Status.DECLINED (some now) none
    hfind1, rfl, rfl, by simp, ?_⟩
  intro i h1 h2
  constructor
  · intro hne
    simp only [List.get_eq_getElem, List.getElem_map]
    rw [updRow, if_neg]
    intro hcond
    rw [Bool.and_eq_true, beq_iff_eq, beq_iff_eq] at hcond
    exact hne hcond
  · intro hmatch
    simp only [List.get_eq_getElem, List.getElem_map]
    rw [updRow, if_pos]
    · rfl
    · rw [Bool.and_eq_true, beq_iff_eq, beq_iff_eq]
      exact hmatch

theorem handlers_notAuthorized {store : Store} {id userEmail userRole : String}
    {now : Nat} {expense : Expense}
    (hrole : roleOk userRole = true)
    (hfind : findExpense store id = some expense)
    (hpend : expense.status = Status.PENDING)
    (hnone : findActionable expense userEmail = none) :
    approve store id userEmail userRole now =
      (store, Except.error ApiError.NotAuthorized) ∧
    decline store id userEmail userRole now =
      (store, Except.error ApiError.NotAuthorized) := by
  have hb : (expense.status != Status.PENDING) = false := by
    rw [hpend]
    simp
  constructor
  · simp [approve, hrole, hfind, hb, hnone]
  · simp [decline, hrole, hfind, hb, hnone]

/-- C7: an approve or decline call by an identity with no PENDING approval
record at exactly the expense's current level — in particular an identity
assigned only to a later level — fails with the NotAuthorized response and
leaves the store (the expense and every approval record) unchanged. -/
theorem no_pending_record_not_authorized (store : Store)
    (id userEmail userRole : String) (now : Nat) (expense : Expense)
    (hrole : roleOk userRole = true)
    (hfind : findExpense store id = some expense)
    (hpend : expense.status = Status.PENDING)
    (hnone : findActionable expense userEmail = none) :
    approve store id userEmail userRole now =
      (store, Except.error ApiError.NotAuthorized) ∧
    decline store id userEmail userRole now =
      (store, Except.error ApiError.NotAuthorized) :=
  handlers_notAuthorized hrole hfind hpend hnone

/-- C8: an approve or decline call on an expense whose status is terminal
(not PENDING) fails with the ExpenseNotPending response and leaves the
store — the expense row and all approval records — unchanged. -/
theorem terminal_expense_not_mutated (store : Store)
    (id userEmail userRole : String) (now : Nat) (expense : Expense)
    (hrole : roleOk userRole = true)
    (hfind : findExpense store id = some expense)
    (hterm : expense.status ≠ Status.PENDING) :
    approve store id userEmail userRole now =
      (store, Except.error ApiError.ExpenseNotPending) ∧
    decline store id userEmail userRole now =
      (store, Except.error ApiError.ExpenseNotPending) := by
  have hb : (expense.status != Status.PENDING) = true := bne_iff_ne.mpr hterm
  constructor
  · simp [approve, hrole, hfind, hb]
  · simp [decline, hrole, hfind, hb]

/-- C10: an approve or decline call naming an expense id for which no
expense row exists fails with the not-found response — an error distinct
from NotAuthorized and from ExpenseNotPending — and the store does not
change. -/
theorem unknown_expense_not_found (store : Store)
    (id userEmail userRole : String) (now : Nat)
    (hrole : roleOk userRole = true)
    (hfind : findExpense store id = none) :
    approve store id userEmail userRole now =
      (store, Except.error ApiError.NotFound) ∧
    decline store id userEmail userRole now =
      (store, Except.error ApiError.NotFound) ∧
    ApiError.NotFound ≠ ApiError.NotAuthorized ∧
    ApiError.NotFound ≠ ApiError.ExpenseNotPending := by
  refine ⟨?_, ?_, by simp, by simp⟩
  · simp [approve, hrole, hfind]
  · simp [decline, hrole, hfind]

/-- C6 (amended): a second approve or decline call by an approver whose
approval record at the current level has already been decided fails, but
with the same NotAuthorized response that an unassigned identity receives —
the code has no distinct AlreadyDecided failure — and the store is
unchanged. -/
theorem already_decided_not_authorized (store : Store)
    (id userEmail userRole : String) (now : Nat) (expense : Expense)
    (hrole : roleOk userRole = true)
    (hfind : findExpense store id = some expense)
    (hpend : expense.status = Status.PENDING)
    (hex : ∃ a ∈ expense.approvals,
      a.level = expense.currentApprovalLevel ∧ a.approverEmail = userEmail)
    (hall : ∀ a ∈ expense.approvals,
      a.level = expense.currentApprovalLevel → a.approverEmail = userEmail →
        a.status ≠ Status.PENDING) :
    approve store id userEmail userRole now =
      (store, Except.error ApiError.NotAuthorized) ∧
    decline store id userEmail userRole now =
      (store, Except.error ApiError.NotAuthorized) := by
  obtain ⟨_, _, _⟩ := hex
  have hnone : findActionable expense userEmail = none := by
    rw [findActionable, List.find?_eq_none]
    intro a hmem hp
    rw [Bool.and_eq_true, Bool.and_eq_true, beq_iff_eq, beq_iff_eq,
      beq_iff_eq] at hp
    exact hall a hmem hp.1.1 hp.1.2 hp.2
  exact handlers_notAuthorized hrole hfind hpend hnone

/-- C6 (counterexample to the claim as stated): on an expense with two
level-1 approvers, `a@x` approves once (accepted), then approves again; the
second call is rejected with exactly the NotAuthorized response — the very
value an identity that was never assigned (`z@x`) receives — not with a
distinct AlreadyDecided error. -/
theorem already_decided_counterexample :
    (approve cxStore "E" "a@x" "APPROVER" 1).2 = Except.ok () ∧
    (approve (approve cxStore "E" "a@x" "APPROVER" 1).1
        "E" "a@x" "APPROVER" 2).2 = Except.error ApiError.NotAuthorized ∧
    (approve cxStore "E" "z@x" "APPROVER" 1).2 =
      Except.error ApiError.NotAuthorized := by
  refine ⟨rfl, rfl, rfl⟩

theorem jsMaxLevel_cons (a : WorkflowStep) (t : List WorkflowStep) :
    jsMaxLevel (a :: t) =
      match jsMaxLevel t with
      | none => some a.level
      | some m => some (max a.level m) := rfl

theorem jsMaxLevel_spec (ws : List WorkflowStep) (h : ws ≠ []) :
    ∃ m, jsMaxLevel ws = some m ∧ (∀ s ∈ ws, s.level ≤ m) ∧
      ∃ s ∈ ws, s.level = m := by
  induction ws with
  | nil => exact absurd rfl h
  | cons a t ih =>
    cases t with
    | nil =>
      refine ⟨a.level, rfl, ?_, a, List.mem_singleton.mpr rfl, rfl⟩
      intro s hs
      rw [List.mem_singleton] at hs
      rw [hs]
    | cons b t' =>
      obtain ⟨m, hm, hub, s, hsmem, hsl⟩ := ih (by simp)
      refine ⟨max a.level m, ?_, ?_, ?_⟩
      · rw [jsMaxLevel_cons, hm]
      · intro s' hs'
        rcases List.mem_cons.mp hs' with hs' | hs'
        · rw [hs']
          exact Nat.le_max_left _ _
        · exact (hub s' hs').trans (Nat.le_max_right _ _)
      · rcases Nat.le_total m a.level with hc | hc
        · exact ⟨a, List.mem_cons_self _ _, (Nat.max_eq_left hc).symm⟩
        · exact ⟨s, List.mem_cons_of_mem _ hsmem,
            hsl.trans (Nat.max_eq_right hc).symm⟩

theorem createApprovalRecords_pairs (eid : String) (ws : List WorkflowStep) :
    (createApprovalRecords eid ws).map (fun a => (a.level, a.approverEmail)) =
      ws.map (fun s => (s.level, s.recipient)) := by
  rw [createApprovalRecords, List.map_map]
  rfl

theorem createApprovalRecords_pending (eid : String) (ws : List WorkflowStep) :
    ∀ a ∈ createApprovalRecords eid ws, a.status = Status.PENDING := by
  intro a ha
  rw [createApprovalRecords, List.mem_map] at ha
  obtain ⟨s, _, rfl⟩ := ha
  rfl

/-- C4: `getApprovalWorkflow` returns exactly the `(level, recipient)`
projections of the rule rows matching the department, the amount range and
the currency (exact or `'ALL'`), de-duplicated, sorted ascending by level
with ties broken by recipient; resolving the same triple twice over the
same rule table yields identical ordered results. -/
theorem getApprovalWorkflow_spec (rules : List ApprovalRule) (dept : String)
    (amount : ℚ) (curr : String) :
    (∀ s, s ∈ getApprovalWorkflow rules dept amount curr ↔
      ∃ r ∈ rules, ruleMatches dept amount curr r = true ∧ toStep r = s) ∧
    List.Sorted stepLe (getApprovalWorkflow rules dept amount curr) ∧
    (getApprovalWorkflow rules dept amount curr).Nodup ∧
    getApprovalWorkflow rules dept amount curr =
      getApprovalWorkflow rules dept amount curr := by
  refine ⟨?_, ?_, ?_, rfl⟩
  · intro s
    rw [getApprovalWorkflow, List.mem_insertionSort, List.mem_dedup,
      List.mem_map]
    constructor
    · rintro ⟨r, hr, rfl⟩
      rw [List.mem_filter] at hr
      exact ⟨r, hr.1, hr.2, rfl⟩
    · rintro ⟨r, hr, hm, rfl⟩
      exact ⟨r, List.mem_filter.mpr ⟨hr, hm⟩, rfl⟩
  · haveI := stepLe_isTotal
    haveI := stepLe_isTrans
    exact List.sorted_insertionSort stepLe _
  · exact ((List.perm_insertionSort stepLe _).nodup_iff).mpr
      (List.nodup_dedup _)

/-- C9: a submission whose workflow resolves to a non-empty step list is
stored with `currentApprovalLevel = 1`, `maxApprovalLevel` equal to the
highest level among the resolved steps, and exactly one PENDING approval
record per resolved `(level, recipient)` step. -/
theorem addExpense_initial_state (rules : List ApprovalRule) (store : Store)
    (id name : String) (amount : ℚ)
    (currency department submitterEmail : String) (submittedAt : Nat)
    (attachment : Option Attachment)
    (hne : getApprovalWorkflow rules department amount currency ≠ []) :
    (addExpense rules store id name amount currency department submitterEmail
        submittedAt attachment).2 ∈
      (addExpense rules store id name amount currency department submitterEmail
        submittedAt attachment).1.expenses ∧
    (addExpense rules store id name amount currency department submitterEmail
        submittedAt attachment).2.currentApprovalLevel = 1 ∧
    (∃ m, (addExpense rules store id name amount currency department
        submitterEmail submittedAt attachment).2.maxApprovalLevel = some m ∧
      (∀ s ∈ getApprovalWorkflow rules department amount currency,
        s.level ≤ m) ∧
      ∃ s ∈ getApprovalWorkflow rules department amount currency,
        s.level = m) ∧
    (addExpense rules store id name amount currency department submitterEmail
        submittedAt attachment).2.approvals.map
        (fun a => (a.level, a.approverEmail)) =
      (getApprovalWorkflow rules department amount currency).map
        (fun s => (s.level, s.recipient)) ∧
    (∀ a ∈ (addExpense rules store id name amount currency department
        submitterEmail submittedAt attachment).2.approvals,
      a.status = Status.PENDING) := by
  obtain ⟨m, hm, hub, hmem⟩ := jsMaxLevel_spec _ hne
  refine ⟨?_, rfl, ⟨m, ?_, hub, hmem⟩, ?_, ?_⟩
  · rw [addExpense]
    exact List.mem_append_right _ (List.mem_singleton.mpr rfl)
  · exact hm
  · exact createApprovalRecords_pairs _ _
  · exact createApprovalRecords_pending _ _

/-- C5 (code behaviour at the failing input): a submission whose
(department, amount, currency) matches no rule of the seeded table is NOT
refused — `addExpense` resolves an empty workflow, stores the expense
anyway with `maxApprovalLevel = -Infinity` (modelled `none`) and zero
approval records, leaving an expense no identity can ever decide. -/
theorem addExpense_empty_workflow_stored :
    getApprovalWorkflow approvalRulesSeed "Marketing" 100 "USD" = [] ∧
    (addExpense approvalRulesSeed ⟨[]⟩ "exp-1" "team lunch" 100 "USD"
      "Marketing" "s@x" 0 none).2.maxApprovalLevel = none ∧
    (addExpense approvalRulesSeed ⟨[]⟩ "exp-1" "team lunch" 100 "USD"
      "Marketing" "s@x" 0 none).2.approvals = [] ∧
    (addExpense approvalRulesSeed ⟨[]⟩ "exp-1" "team lunch" 100 "USD"
      "Marketing" "s@x" 0 none).1.expenses.length = 1 := by
  refine ⟨by decide, by decide, by decide, by decide⟩

/-- Witness for C1 at a concrete input: with two level-1 approvers and a
first approval by `a@x`, the completed count (1) is below the total (2), so
the expense neither advances nor finalizes. -/
theorem approve_level_complete_iff_witness :
    ∃ e', findExpense (approve cxStore "E" "a@x" "APPROVER" 5).1 "E" =
        some e' ∧
      (completedRecords cxExp "a@x").length ≤ (levelRecords cxExp).length ∧
      ((e'.currentApprovalLevel ≠ cxExp.currentApprovalLevel ∨
          e'.status ≠ Status.PENDING) ↔
        (completedRecords cxExp "a@x").length =
          (levelRecords cxExp).length) :=
  approve_level_complete_iff cxStore "E" "a@x" "APPROVER" 5 cxExp
    ⟨"r1", "E", 1, "a@x", Status.PENDING, none⟩
    (by decide) (by decide) rfl (by decide)

/-- Witness for C2 at a concrete input: approving the only level-1 record of
a two-level expense advances it to level 2 and keeps it PENDING. -/
theorem approve_advance_or_finalize_witness :
    ∃ e', findExpense (approve wStore "W" "a@x" "APPROVER" 7).1 "W" =
        some e' ∧
      e'.currentApprovalLevel = 2 ∧ e'.status = Status.PENDING := by
  obtain ⟨e', h1, _, h3, _⟩ := approve_advance_or_finalize wStore "W" "a@x"
    "APPROVER" 7 wExp ⟨"r1", "W", 1, "a@x", Status.PENDING, none⟩
    (by decide) (by decide) rfl (by decide) (by decide)
  obtain ⟨ha, hb⟩ := h3 2 rfl (by decide)
  exact ⟨e', h1, ha, hb⟩

/-- Witness for C3 at a concrete input: a decline by `b@x` at level 2 of a
three-level expense declines the expense while keeping all four approval
records present. -/
theorem decline_declines_and_frames_witness :
    ∃ e', findExpense (decline dStore "D" "b@x" "APPROVER" 9).1 "D" =
        some e' ∧
      e'.status = Status.DECLINED ∧ e'.approvals.length = 4 := by
  obtain ⟨e', h1, _, h3, h4, _⟩ := decline_declines_and_frames dStore "D"
    "b@x" "APPROVER" 9 dExp ⟨"r2", "D", 2, "b@x", Status.PENDING, none⟩
    (by decide) (by decide) rfl (by decide)
  exact ⟨e', h1, h3, h4.trans (by decide)⟩

/-- Witness for the amended C6 at a concrete input: `a@x`, whose level-1
record is already APPROVED, receives the NotAuthorized response on both
approve and decline. -/
theorem already_decided_not_authorized_witness :
    approve eStore "G" "a@x" "APPROVER" 3 =
      (eStore, Except.error ApiError.NotAuthorized) ∧
    decline eStore "G" "a@x" "APPROVER" 3 =
      (eStore, Except.error ApiError.NotAuthorized) :=
  already_decided_not_authorized eStore "G" "a@x" "APPROVER" 3 eExp
    (by decide) (by decide) rfl
    ⟨⟨"r1", "G", 1, "a@x", Status.APPROVED, some 1⟩, by decide, rfl, rfl⟩
    (by decide)

/-- Witness for C7 at a concrete input: `b@x`, assigned only at level 2 of a
two-level expense currently at level 1, receives the NotAuthorized response
on both approve and decline. -/
theorem no_pending_record_not_authorized_witness :
    approve wStore "W" "b@x" "APPROVER" 4 =
      (wStore, Except.error ApiError.NotAuthorized) ∧
    decline wStore "W" "b@x" "APPROVER" 4 =
      (wStore, Except.error ApiError.NotAuthorized) :=
  no_pending_record_not_authorized wStore "W" "b@x" "APPROVER" 4 wExp
    (by decide) (by decide) rfl (by decide)

/-- Witness for C8 at a concrete input: both decision calls on an APPROVED
expense return the ExpenseNotPending response and leave the store as it
was. -/
theorem terminal_expense_not_mutated_witness :
    approve tStore "T" "a@x" "APPROVER" 4 =
      (tStore, Except.error ApiError.ExpenseNotPending) ∧
    decline tStore "T" "a@x" "APPROVER" 4 =
      (tStore, Except.error ApiError.ExpenseNotPending) :=
  terminal_expense_not_mutated tStore "T" "a@x" "APPROVER" 4 tExp
    (by decide) (by decide) (by decide)

/-- Witness for C9 at a concrete input: an HR submission of 500 USD resolves
to the single level-1 step of the seeded table and is stored at level 1 of
1. -/
theorem addExpense_initial_state_witness :
    (addExpense approvalRulesSeed ⟨[]⟩ "exp-2" "training" 500 "USD" "HR"
      "s@x" 0 none).2.currentApprovalLevel = 1 ∧
    (addExpense approvalRulesSeed ⟨[]⟩ "exp-2" "training" 500 "USD" "HR"
      "s@x" 0 none).2.maxApprovalLevel = some 1 := by
  obtain ⟨_, h1, ⟨m, hm, _, s, hsmem, hsl⟩, _, _⟩ :=
    addExpense_initial_state approvalRulesSeed ⟨[]⟩ "exp-2" "training" 500
      "USD" "HR" "s@x" 0 none (by decide)
  have hW : getApprovalWorkflow approvalRulesSeed "HR" 500 "USD" =
      [⟨1, "hr@holdalgroup.com"⟩] := by decide
  rw [hW, List.mem_singleton] at hsmem
  rw [hsmem] at hsl
  refine ⟨h1, ?_⟩
  rw [hm, ← hsl]

/-- Witness for C10 at a concrete input: both decision calls on an unknown
expense id return the not-found response and leave the store as it was. -/
theorem unknown_expense_not_found_witness :
    approve cxStore "NOPE" "a@x" "APPROVER" 1 =
      (cxStore, Except.error ApiError.NotFound) ∧
    decline cxStore "NOPE" "a@x" "APPROVER" 1 =
      (cxStore, Except.error ApiError.NotFound) := by
  obtain ⟨h1, h2, _, _⟩ := unknown_expense_not_found cxStore "NOPE" "a@x"
    "APPROVER" 1 (by decide) (by decide)
  exact ⟨h1, h2⟩
